import Mathlib

/-!
Verification of the meister job scheduler (schedulers/__init__.py,
creators/rex.py, creators/network_poll_sanitizer.py).

The Python source is shallowly embedded: Kubernetes resource strings are
Lean `String`s parsed into exact rationals / integers, cluster state is a
`Finset` of pod names, exceptions are `Except` / `Option` values, and the
database rows touched by the scheduler are association lists.
-/

namespace Meister

/-! ### Resource-string parsing (schedulers/__init__.py, lines 31-47) -/

/-- Numeric value of a decimal digit character, `none` for anything else. -/
def charDigit? (c : Char) : Option ℕ :=
  if '0' ≤ c ∧ c ≤ '9' then some (c.toNat - 48) else none

/-- Models Python `int(s)` on an unsigned decimal numeral: `none` (a raised
`ValueError`) on the empty string or any non-digit character. -/
def digitsToNat? : List Char → Option ℕ
  | [] => none
  | cs => cs.foldl (fun acc c => do (10 * (← acc) + (← charDigit? c) : ℕ)) (some 0)

/-- Models Python `s.endswith(suffix)`. -/
def strEndsWith (s : List Char) (suffix : List Char) : Bool :=
  List.isSuffixOf suffix s

/-- Models the Python slice `s[:-n]`. -/
def strDropRight (s : List Char) (n : ℕ) : List Char := s.take (s.length - n)

/-- Models Python `float(s)` on an unsigned decimal numeral such as `"4"` or
`"2.5"` (the domain of Kubernetes CPU quantities), exactly, as a rational. -/
def decimalToRat? (s : List Char) : Option ℚ :=
  match s.splitOn '.' with
  | [intPart] => (digitsToNat? intPart).map (fun n => (n : ℚ))
  | [intPart, fracPart] => do
      let ip ← digitsToNat? intPart
      let fp ← digitsToNat? fracPart
      return (ip : ℚ) + (fp : ℚ) / (10 ^ fracPart.length)
  | _ => none

/-- `cpu2float` (lines 31-35): a quantity ending in `m` is milli-cores, the
numeric prefix divided by 1000; otherwise the raw number of cores. -/
def cpu2float (cpu : String) : Option ℚ :=
  if strEndsWith cpu.data ['m'] then
    (digitsToNat? (strDropRight cpu.data 1)).map (fun n => (n : ℚ) / 1000)
  else
    decimalToRat? cpu.data

/-- `memory2int` (lines 38-47): pick the multiplier for the `Ki`/`Mi`/`Gi`
suffix (1 when none matches), then return `int(memory[:-2]) * multiplier`.
The slice `memory[:-2]` is taken unconditionally, exactly as in the source. -/
def memory2int (memory : String) : Option ℤ :=
  let multiplier : ℤ :=
    if strEndsWith memory.data ['K', 'i'] then 1024
    else if strEndsWith memory.data ['M', 'i'] then 1024 ^ 2
    else if strEndsWith memory.data ['G', 'i'] then 1024 ^ 3
    else 1
  (digitsToNat? (strDropRight memory.data 2)).map (fun n => (n : ℤ) * multiplier)

/-! ### Pod-template resource defaulting (`_kube_pod_template`, lines 91-118) -/

/-- The job-schema defaults `Job.request_cpu.default` etc. of the farnsworth
`Job` model, a parameter of the embedding. -/
structure JobDefaults where
  request_cpu : ℚ
  request_memory : ℚ
  limit_cpu : ℚ
  limit_memory : ℚ

/-- The resource hint columns of a job row; `none` is SQL NULL (unset). -/
structure JobHints where
  request_cpu : Option ℚ
  request_memory : Option ℚ
  limit_cpu : Option ℚ
  limit_memory : Option ℚ

/-- The four resource numbers carried by the built pod spec. -/
structure PodResourceSpec where
  request_cpu : ℚ
  request_memory : ℚ
  limit_cpu : ℚ
  limit_memory : ℚ

/-- The resource computation of `_kube_pod_template` (lines 93-118): requests
default to the schema defaults when unset; a limit defaults to the schema
default when unset, is kept when the request is strictly below it, and is
otherwise replaced by twice the request. -/
def kube_pod_resources (dft : JobDefaults) (job : JobHints) : PodResourceSpec :=
  let request_cpu := match job.request_cpu with
    | none => dft.request_cpu
    | some v => v
  let request_memory := match job.request_memory with
    | none => dft.request_memory
    | some v => v
  let limit_cpu := match job.limit_cpu with
    | none => dft.limit_cpu
    | some l => if request_cpu < l then l else request_cpu * 2
  let limit_memory := match job.limit_memory with
    | none => dft.limit_memory
    | some l => if request_memory < l then l else request_memory * 2
  ⟨request_cpu, request_memory, limit_cpu, limit_memory⟩

/-! ### Resource accountant (`_kube_resources`, lines 201-300) -/

/-- The phase of a pod as exposed by the cluster API (`pod.pending`,
`pod.running`, `pod.succeeded`, `pod.failed`, `pod.unknown`, anything else). -/
inductive Phase
  | pending
  | running
  | succeeded
  | failed
  | unknown
  | other
  deriving DecidableEq

/-- A `requests` or `limits` entry of a pod's resources dict: the raw cpu and
memory quantity strings. -/
structure PodResources where
  cpu : String
  memory : String

/-- A pod as seen by the accountant: its name, phase and the resources dict of
its single container, where `requests = none` and `limits = none` together
stand for an empty (falsy) resources dict. -/
structure Pod where
  name : String
  phase : Phase
  requests : Option PodResources
  limits : Option PodResources

/-- A node's capacity strings from the cluster API. -/
structure Node where
  name : String
  cpu : String
  memory : String
  pods : String

/-- The `{cpu, memory, pods}` vector held in `_available_resources`. All three
components are rationals because the source multiplies each by the float
overprovisioning factor before returning. -/
structure Avail where
  cpu : ℚ
  memory : ℚ
  pods : ℚ

/-- Lines 244-250: a falsy resources dict yields the zero quantities
`{'cpu': '0', 'memory': '0Ki'}`; otherwise take `requests`, falling back to
`limits` on `KeyError`. -/
def pod_resource_strings (p : Pod) : PodResources :=
  match p.requests, p.limits with
  | some r, _ => r
  | none, some l => l
  | none, none => ⟨"0", "0Ki"⟩

/-- The parsed cost of one pod: its cpu quantity through `cpu2float` and its
memory quantity through `memory2int` (lines 252-253); `none` models a raised
parse error. -/
def podCost (p : Pod) : Option (ℚ × ℤ) := do
  let rs := pod_resource_strings p
  let c ← cpu2float rs.cpu
  let m ← memory2int rs.memory
  return (c, m)

/-- The pods the `cleanup` classifier (lines 215-234) returns, i.e. the pods in
phase pending or running; all others are classified to `None`. -/
def countedPods (pods : List Pod) : List Pod :=
  pods.filter (fun p => p.phase = Phase.pending ∨ p.phase = Phase.running)

/-- The parsed costs of the counted pods, skipping unparseable ones. -/
def podCosts (pods : List Pod) : List (ℚ × ℤ) :=
  (countedPods pods).filterMap podCost

/-- The pod names the `cleanup` classifier issues a `pod.delete()` for,
following its `if`/`elif` cascade: pending/running pods are kept, failed pods
are deleted, unknown pods are only logged, succeeded pods are deleted, and any
other phase is only logged. -/
def cleanup_deletes (pods : List Pod) : List String :=
  pods.filterMap (fun p =>
    if p.phase = Phase.pending ∨ p.phase = Phase.running then none
    else if p.phase = Phase.failed then some p.name
    else if p.phase = Phase.unknown then none
    else if p.phase = Phase.succeeded then some p.name
    else none)

/-- The subtraction loop of `_kube_resources` (lines 240-255): for every
pending or running pod subtract its parsed cpu and memory cost and one pod
slot from the running accumulator; other pods contribute nothing. `none`
models a parse error raised inside the loop. -/
def kube_resources_loop : List Pod → Avail → Option Avail
  | [], acc => some acc
  | p :: rest, acc =>
    if p.phase = Phase.pending ∨ p.phase = Phase.running then
      match podCost p with
      | some (c, m) =>
          kube_resources_loop rest ⟨acc.cpu - c, acc.memory - (m : ℚ), acc.pods - 1⟩
      | none => none
    else
      kube_resources_loop rest acc

/-- `_kube_node_capacities` for one node (lines 293-299): parse the node's
capacity strings. -/
def node_capacity (n : Node) : Option (ℚ × ℤ × ℕ) := do
  let c ← cpu2float n.cpu
  let m ← memory2int n.memory
  let p ← digitsToNat? n.pods.data
  return (c, m, p)

/-- The summation loop of `_kube_total_capacity` (lines 273-277). -/
def kube_total_capacity_loop : List Node → Avail → Option Avail
  | [], acc => some acc
  | n :: rest, acc =>
    match node_capacity n with
    | some (c, m, p) =>
        kube_total_capacity_loop rest ⟨acc.cpu + c, acc.memory + (m : ℚ), acc.pods + (p : ℚ)⟩
    | none => none

/-- `_kube_total_capacity` (lines 270-282): sum all node capacities starting
from the zero vector. -/
def kube_total_capacity (nodes : List Node) : Option Avail :=
  kube_total_capacity_loop nodes ⟨0, 0, 0⟩

/-- The cache-miss path of `_kube_resources` (lines 211-268): start from the
total capacity, run the per-pod subtraction loop, then multiply every
component by the overprovisioning factor. -/
def kube_resources (nodes : List Node) (pods : List Pod)
    (overprovisioning : ℚ) : Option Avail := do
  let cap ← kube_total_capacity nodes
  let r ← kube_resources_loop pods cap
  return ⟨r.cpu * overprovisioning, r.memory * overprovisioning,
         r.pods * overprovisioning⟩

/-! ### Vulnerability-exploit creator (creators/rex.py) -/

/-- A crash row attached to a challenge binary: its id and kind string. -/
structure Crash where
  id : ℕ
  kind : String

/-- A challenge binary node with its attached crashes. -/
structure ChallengeBinaryNode where
  id : ℕ
  crashes : List Crash

/-- A job emitted by `RexCreator.jobs`: the keying fields of the
`RexJob.get_or_create` call, its fixed resource hints and its priority. -/
structure RexJob where
  cbn_id : ℕ
  crash_id : ℕ
  limit_cpu : ℚ
  limit_memory : ℚ
  priority : ℤ
  deriving DecidableEq

/-- `PRIORITY_MAP` of creators/rex.py (lines 27-36). -/
def PRIORITY_MAP : List (String × ℤ) :=
  [("ip_overwrite", 100),
   ("partial_ip_overwrite", 80),
   ("arbitrary_read", 75),
   ("write_what_where", 50),
   ("write_x_where", 25),
   ("bp_overwrite", 10),
   ("partial_bp_overwrite", 5),
   ("uncontrolled_write", 0),
   ("uncontrolled_ip_overwrite", 0),
   ("null_dereference", 0)]

/-- The crash kinds skipped by the guard at lines 46-50. -/
def rex_filtered_kinds : List String :=
  ["null_dereference", "uncontrolled_ip_overwrite", "uncontrolled_write", "unknown"]

/-- `RexCreator.jobs` (lines 39-64): for every binary and every attached
crash, skip the filtered kinds; otherwise create the job with
`limit_cpu=1, limit_memory=10` and yield it with the mapped priority, or skip
it (logging an error) when its kind has no entry in `PRIORITY_MAP`. -/
def rex_jobs (cbns : List ChallengeBinaryNode) : List RexJob :=
  cbns.flatMap (fun cbn =>
    cbn.crashes.filterMap (fun crash =>
      if crash.kind ∈ rex_filtered_kinds then none
      else
        match PRIORITY_MAP.lookup crash.kind with
        | some p => some ⟨cbn.id, crash.id, 1, 10, p⟩
        | none => none))

/-! ### Cluster mutation: `schedule`, `terminate`, `_schedule_kube_pod`
(schedulers/__init__.py, lines 67-71 and 302-330) -/

/-- The outcome of one cluster API call: success, a `requests` HTTP error
with its status code, or a `pykube` HTTP error. -/
inductive ApiOutcome
  | ok
  | httpError (status : ℕ)
  | pykubeError
  deriving DecidableEq

/-- `_worker_name` (lines 80-83). -/
def worker_name (job_id : ℕ) : String := "worker-" ++ toString job_id

/-- `terminate` (lines 321-330): call `exists()`, and when the pod is present
call `delete()`. Neither call is guarded by a handler, so any error raised by
either call propagates to the caller. -/
def terminate (existsOutcome deleteOutcome : ApiOutcome) (cluster : Finset String)
    (name : String) : Except ApiOutcome (Finset String) :=
  match existsOutcome with
  | .ok =>
      if name ∈ cluster then
        match deleteOutcome with
        | .ok => .ok (cluster.erase name)
        | e => .error e
      else .ok cluster
  | e => .error e

/-- The raw `Pod(...).create()` call: when the transport succeeds the cluster
itself answers HTTP 409 if a pod of that name already exists, and otherwise
admits the pod. -/
def create_pod (transport : ApiOutcome) (cluster : Finset String)
    (name : String) : ApiOutcome × Finset String :=
  match transport with
  | .ok =>
      if name ∈ cluster then (.httpError 409, cluster)
      else (.ok, insert name cluster)
  | e => (e, cluster)

/-- `_schedule_kube_pod` (lines 302-319): run the create call and catch every
error it raises. A 409 is logged at warning and treated as success; any other
HTTP error and any pykube error is logged and also absorbed. -/
def schedule_kube_pod (transport : ApiOutcome) (cluster : Finset String)
    (job_id : ℕ) : Except ApiOutcome (Finset String) :=
  match create_pod transport cluster (worker_name job_id) with
  | (.ok, cluster2) => .ok cluster2
  | (.httpError _, cluster2) => .ok cluster2
  | (.pykubeError, cluster2) => .ok cluster2

/-- `schedule` (lines 67-71): terminate the worker of the job id, then create
its pod. Errors raised by `terminate` propagate. -/
def schedule (existsOutcome deleteOutcome createOutcome : ApiOutcome)
    (cluster : Finset String) (job_id : ℕ) : Except ApiOutcome (Finset String) := do
  let cluster2 ← terminate existsOutcome deleteOutcome cluster (worker_name job_id)
  schedule_kube_pod createOutcome cluster2 job_id

/-- One `schedule` call on an error-free cluster, as a total state
transformer (with all API outcomes `ok` the error branch is unreachable). -/
def scheduleRun (job_id : ℕ) (cluster : Finset String) : Finset String :=
  match schedule .ok .ok .ok cluster job_id with
  | .ok cluster2 => cluster2
  | .error _ => cluster

/-! ### `BaseScheduler.run` in cluster-absent mode (lines 375-387) -/

/-- `_is_kubernetes_unavailable` (lines 85-89): the host variable is unset or
set to the empty string. -/
def is_kubernetes_unavailable (host : Option String) : Bool :=
  host.isNone || host == some ""

/-- One iteration of the cluster-absent loop body (lines 380-384): look the
job row up by its keying fields (modelled by the id), create it when absent,
set its priority and save. -/
def persistPriority : List (ℕ × ℚ) → ℕ → ℚ → List (ℕ × ℚ)
  | [], jid, p => [(jid, p)]
  | row :: rest, jid, p =>
      if row.1 = jid then (jid, p) :: rest else row :: persistPriority rest jid p

/-- What one `run()` call produced: the database after the transaction and the
number of cluster API calls issued. -/
structure RunOutcome where
  db : List (ℕ × ℚ)
  clusterCalls : ℕ

/-- `BaseScheduler.run` (lines 375-387) in cluster-absent mode: inside one
transaction persist the priority of every `(job, priority)` pair the brain
emitted, touching the cluster zero times. In cluster-present mode control
moves to the subclass hook `_run`, outside this model (`none`). -/
def scheduler_run (host : Option String) (sorted : List (ℕ × ℚ))
    (db : List (ℕ × ℚ)) : Option RunOutcome :=
  if is_kubernetes_unavailable host then
    some ⟨sorted.foldl (fun d jp => persistPriority d jp.1 jp.2) db, 0⟩
  else none

/-! ### Poll-sanitizer creator (creators/network_poll_sanitizer.py) -/

/-- A `RawRoundPoll` row: its id and sanitized flag. -/
structure RawRoundPoll where
  id : ℕ
  sanitized : Bool

/-- `PollSanitizerJob.get_or_create(payload={'rrp_id': ...})`: insert the job
keyed by the poll id unless one already exists. The store is the list of
`rrp_id` keys present in the `PollSanitizerJob` table. -/
def get_or_create_psjob (store : List ℕ) (rrp_id : ℕ) : List ℕ :=
  if rrp_id ∈ store then store else store ++ [rrp_id]

/-- `NetworkPollSanitizerCreator.jobs` (lines 10-18): for every poll selected
by `sanitized == False` run the get-or-create, then return the empty iterator
(the `yield` is commented out in the source). Result: the updated store and
the emitted job stream. -/
def nps_jobs (polls : List RawRoundPoll) (store : List ℕ) : List ℕ × List ℕ :=
  ((polls.filter (fun p => p.sanitized = false)).foldl
    (fun st poll => get_or_create_psjob st poll.id) store, [])

/-! ### Helper lemmas about the accountant -/

/-- Closed form of the subtraction loop: when every counted pod's cost
parses, the loop subtracts the component-wise sum of the parsed costs and one
pod slot per counted pod. -/
theorem kube_resources_loop_eq (pods : List Pod) :
    ∀ acc : Avail, (∀ p ∈ countedPods pods, (podCost p).isSome = true) →
    kube_resources_loop pods acc = some
      ⟨acc.cpu - ((podCosts pods).map Prod.fst).sum,
       acc.memory - ((((podCosts pods).map Prod.snd).sum : ℤ) : ℚ),
       acc.pods - (countedPods pods).length⟩ := by
  induction pods with
  | nil =>
      intro acc _
      simp [kube_resources_loop, countedPods, podCosts]
  | cons p rest ih =>
      intro acc h
      by_cases hp : p.phase = Phase.pending ∨ p.phase = Phase.running
      · have hcount : countedPods (p :: rest) = p :: countedPods rest := by
          simp [countedPods, List.filter_cons, hp]
        have hmem : p ∈ countedPods (p :: rest) := by
          rw [hcount]; exact List.mem_cons_self _ _
        obtain ⟨pc, hpc⟩ := Option.isSome_iff_exists.mp (h p hmem)
        obtain ⟨c, m⟩ := pc
        have hrest : ∀ q ∈ countedPods rest, (podCost q).isSome = true := by
          intro q hq
          exact h q (by rw [hcount]; exact List.mem_cons_of_mem _ hq)
        have hcosts : podCosts (p :: rest) = (c, m) :: podCosts rest := by
          simp [podCosts, hcount, List.filterMap_cons, hpc]
        have hstep : kube_resources_loop (p :: rest) acc
            = kube_resources_loop rest
                ⟨acc.cpu - c, acc.memory - (m : ℚ), acc.pods - 1⟩ := by
          simp [kube_resources_loop, hp, hpc]
        rw [hstep, ih _ hrest, hcount, hcosts]
        simp only [List.map_cons, List.sum_cons, List.length_cons, Option.some.injEq,
          Avail.mk.injEq]
        refine ⟨by ring, by push_cast; ring, by push_cast; ring⟩
      · have hcount : countedPods (p :: rest) = countedPods rest := by
          simp [countedPods, List.filter_cons, hp]
        have hrest : ∀ q ∈ countedPods rest, (podCost q).isSome = true := by
          intro q hq
          exact h q (by rw [hcount]; exact hq)
        have hstep : kube_resources_loop (p :: rest) acc
            = kube_resources_loop rest acc := by
          simp [kube_resources_loop, hp]
        rw [hstep, ih _ hrest]
        simp [podCosts, hcount]

/-- The deletion cascade of `cleanup` deletes exactly the succeeded and failed
pods. -/
theorem cleanup_deletes_eq (pods : List Pod) :
    cleanup_deletes pods = (pods.filter
      (fun p => p.phase = Phase.succeeded ∨ p.phase = Phase.failed)).map Pod.name := by
  induction pods with
  | nil => rfl
  | cons p rest ih =>
      cases hp : p.phase <;>
        simp_all [cleanup_deletes, List.filterMap_cons, List.filter_cons, hp]

/-- Closed form of the full cache-miss computation, as a map over the parsed
total capacity. -/
theorem kube_resources_eq (nodes : List Node) (pods : List Pod) (over : ℚ)
    (h : ∀ p ∈ countedPods pods, (podCost p).isSome = true) :
    kube_resources nodes pods over = (kube_total_capacity nodes).map (fun cap =>
      ⟨(cap.cpu - ((podCosts pods).map Prod.fst).sum) * over,
       (cap.memory - ((((podCosts pods).map Prod.snd).sum : ℤ) : ℚ)) * over,
       (cap.pods - (countedPods pods).length) * over⟩) := by
  unfold kube_resources
  cases hcap : kube_total_capacity nodes with
  | none => rfl
  | some cap =>
      simp [kube_resources_loop_eq pods cap h]

/-- C1: For every snapshot, the accountant's cache-miss computation returns
total node capacity minus, for each pod in phase pending or running, that
pod's requested cpu/memory (falling back to its limits when requests are
absent and to zero quantities when the resources dict is empty) and one pod
slot, the result multiplied componentwise by the overprovisioning factor;
succeeded and failed pods are issued a best-effort delete and contribute no
subtraction. -/
theorem c1_available_resources (nodes : List Node) (pods : List Pod) (over : ℚ)
    (h : ∀ p ∈ countedPods pods, (podCost p).isSome = true) :
    kube_resources nodes pods over = (kube_total_capacity nodes).map (fun cap =>
      ⟨(cap.cpu - ((podCosts pods).map Prod.fst).sum) * over,
       (cap.memory - ((((podCosts pods).map Prod.snd).sum : ℤ) : ℚ)) * over,
       (cap.pods - (countedPods pods).length) * over⟩) ∧
    cleanup_deletes pods = (pods.filter
      (fun p => p.phase = Phase.succeeded ∨ p.phase = Phase.failed)).map Pod.name :=
  ⟨kube_resources_eq nodes pods over h, cleanup_deletes_eq pods⟩

/-- Witness for C1 at the spec's example: capacity `{cpu 4, memory 8Gi, pods
10}`, pod A running with requests `{1500m, 2Gi}`, pod B succeeded,
overprovisioning 1: available is `{cpu 2.5, memory 6Gi, pods 9}` and B is
deleted. -/
theorem c1_witness :
    kube_resources [⟨"node1", "4", "8Gi", "10"⟩]
      [⟨"A", Phase.running, some ⟨"1500m", "2Gi"⟩, none⟩,
       ⟨"B", Phase.succeeded, none, none⟩] 1 = some ⟨5/2, 6 * 1024 ^ 3, 9⟩ ∧
    cleanup_deletes
      [⟨"A", Phase.running, some ⟨"1500m", "2Gi"⟩, none⟩,
       ⟨"B", Phase.succeeded, none, none⟩] = ["B"] := by
  have h := c1_available_resources [⟨"node1", "4", "8Gi", "10"⟩]
    [⟨"A", Phase.running, some ⟨"1500m", "2Gi"⟩, none⟩,
     ⟨"B", Phase.succeeded, none, none⟩] 1 (by decide)
  refine ⟨?_, h.2⟩
  rw [h.1]
  simp +decide [kube_total_capacity, kube_total_capacity_loop, node_capacity,
    podCosts, countedPods, podCost, pod_resource_strings, cpu2float, memory2int,
    decimalToRat?, digitsToNat?, charDigit?, strEndsWith, strDropRight,
    List.splitOn, List.splitOnP, List.splitOnP.go]
  norm_num

/-- C4 counterexample: with a single 1-cpu node and a single running pod
requesting 2 cpus, the returned available cpu is -1. The subtraction is not
clamped at zero. -/
theorem c4_counterexample :
    kube_resources [⟨"n", "1", "0Ki", "10"⟩]
      [⟨"a", Phase.running, some ⟨"2", "0Ki"⟩, none⟩] 1 = some ⟨-1, 0, 9⟩ ∧
    ¬ (0 : ℚ) ≤ -1 := by
  constructor
  · simp +decide [kube_resources, kube_total_capacity, kube_total_capacity_loop,
      node_capacity, kube_resources_loop, podCost, pod_resource_strings, cpu2float,
      memory2int, decimalToRat?, digitsToNat?, charDigit?, strEndsWith, strDropRight,
      List.splitOn, List.splitOnP, List.splitOnP.go]
    norm_num
  · norm_num

/-- C4 amended: the accountant applies no clamping. Each component equals
(capacity - subtracted cost) x overprovisioning, and whenever the summed cpu
cost of the pending/running pods exceeds the cpu capacity (with a positive
overprovisioning factor), the returned cpu component is strictly negative. -/
theorem c4_no_clamping (nodes : List Node) (pods : List Pod) (over : ℚ)
    (cap : Avail) (hcap : kube_total_capacity nodes = some cap)
    (h : ∀ p ∈ countedPods pods, (podCost p).isSome = true)
    (hover : 0 < over)
    (hcpu : cap.cpu < ((podCosts pods).map Prod.fst).sum) :
    kube_resources nodes pods over = some
      ⟨(cap.cpu - ((podCosts pods).map Prod.fst).sum) * over,
       (cap.memory - ((((podCosts pods).map Prod.snd).sum : ℤ) : ℚ)) * over,
       (cap.pods - (countedPods pods).length) * over⟩ ∧
    (cap.cpu - ((podCosts pods).map Prod.fst).sum) * over < 0 := by
  refine ⟨?_, mul_neg_of_neg_of_pos (by linarith) hover⟩
  rw [kube_resources_eq nodes pods over h, hcap]
  rfl

/-- Witness for C4 at the counterexample input: one 1-cpu node, one running
pod requesting 2 cpus, factor 1. -/
theorem c4_witness :
    kube_resources [⟨"n", "1", "0Ki", "10"⟩]
      [⟨"a", Phase.running, some ⟨"2", "0Ki"⟩, none⟩] 1 = some
      ⟨((1 : ℚ) -
          ((podCosts [⟨"a", Phase.running, some ⟨"2", "0Ki"⟩, none⟩]).map Prod.fst).sum) * 1,
       ((0 : ℚ) -
          ((((podCosts [⟨"a", Phase.running, some ⟨"2", "0Ki"⟩, none⟩]).map Prod.snd).sum : ℤ) : ℚ)) * 1,
       ((10 : ℚ) -
          (countedPods [⟨"a", Phase.running, some ⟨"2", "0Ki"⟩, none⟩]).length) * 1⟩ ∧
    ((1 : ℚ) -
        ((podCosts [⟨"a", Phase.running, some ⟨"2", "0Ki"⟩, none⟩]).map Prod.fst).sum) * 1 < 0 :=
  c4_no_clamping [⟨"n", "1", "0Ki", "10"⟩] [⟨"a", Phase.running, some ⟨"2", "0Ki"⟩, none⟩]
    1 ⟨1, 0, 10⟩
    (by simp +decide [kube_total_capacity, kube_total_capacity_loop, node_capacity,
          cpu2float, memory2int, decimalToRat?, digitsToNat?, charDigit?, strEndsWith,
          strDropRight, List.splitOn, List.splitOnP, List.splitOnP.go])
    (by decide) (by norm_num)
    (by simp +decide [podCosts, countedPods, podCost, pod_resource_strings, cpu2float,
          memory2int, decimalToRat?, digitsToNat?, charDigit?, strEndsWith,
          strDropRight, List.splitOn, List.splitOnP, List.splitOnP.go])

/-- C2 counterexample: for a job with request_cpu 3 and limit_cpu 4 the built
spec keeps the supplied limit 4, whereas `max(job.limit, 2 x request)` would
be 6. The claimed `max` rule does not match the code whenever
request < limit < 2 x request. -/
theorem c2_counterexample :
    (kube_pod_resources ⟨1, 1, 1, 1⟩ ⟨some 3, some 1, some 4, some 1⟩).limit_cpu = 4 ∧
    ¬ (kube_pod_resources ⟨1, 1, 1, 1⟩ ⟨some 3, some 1, some 4, some 1⟩).limit_cpu
        = max 4 (2 * 3) := by
  constructor <;> norm_num [kube_pod_resources]

/-- C2 amended: each limit is the job-schema default when unset; when the job
supplies a limit it is kept if the (defaulted) request is strictly below it
and otherwise replaced by 2 x request. In particular for request_cpu = 0.5,
request_memory = 512, limit_cpu unset, limit_memory = 256, the spec carries
limits.cpu = default and limits.memory = 1024. -/
theorem c2_limits_defaulting (dft : JobDefaults) (job : JobHints) :
    ((job.limit_cpu = none →
        (kube_pod_resources dft job).limit_cpu = dft.limit_cpu) ∧
     (∀ l, job.limit_cpu = some l →
        (kube_pod_resources dft job).limit_cpu =
          if (kube_pod_resources dft job).request_cpu < l then l
          else 2 * (kube_pod_resources dft job).request_cpu) ∧
     (job.limit_memory = none →
        (kube_pod_resources dft job).limit_memory = dft.limit_memory) ∧
     (∀ l, job.limit_memory = some l →
        (kube_pod_resources dft job).limit_memory =
          if (kube_pod_resources dft job).request_memory < l then l
          else 2 * (kube_pod_resources dft job).request_memory)) ∧
    kube_pod_resources dft ⟨some (1/2), some 512, none, some 256⟩ =
      ⟨1/2, 512, dft.limit_cpu, 1024⟩ := by
  obtain ⟨rc, rm, lc, lm⟩ := job
  refine ⟨⟨?_, ?_, ?_, ?_⟩, ?_⟩
  · intro h; subst h; cases rc <;> cases rm <;> cases lm <;> rfl
  · rintro l rfl
    cases rc <;> cases rm <;> cases lm <;>
      simp [kube_pod_resources] <;> split <;> ring
  · intro h; subst h; cases rc <;> cases rm <;> cases lc <;> rfl
  · rintro l rfl
    cases rc <;> cases rm <;> cases lc <;>
      simp [kube_pod_resources] <;> split <;> ring
  · norm_num [kube_pod_resources]

/-- Witness for C2: a job with request_cpu 3, request_memory 5, limit_cpu 7,
limit_memory 2: the cpu limit is kept (3 < 7) and the memory limit is
replaced by 2 x 5 = 10; plus the claim's own example. -/
theorem c2_witness :
    (kube_pod_resources ⟨1, 1, 1, 1⟩ ⟨some 3, some 5, some 7, some 2⟩).limit_cpu =
      (if (kube_pod_resources ⟨1, 1, 1, 1⟩ ⟨some 3, some 5, some 7, some 2⟩).request_cpu < 7
       then (7 : ℚ)
       else 2 * (kube_pod_resources ⟨1, 1, 1, 1⟩ ⟨some 3, some 5, some 7, some 2⟩).request_cpu) ∧
    (kube_pod_resources ⟨1, 1, 1, 1⟩ ⟨some 3, some 5, some 7, some 2⟩).limit_memory =
      (if (kube_pod_resources ⟨1, 1, 1, 1⟩ ⟨some 3, some 5, some 7, some 2⟩).request_memory < 2
       then (2 : ℚ)
       else 2 * (kube_pod_resources ⟨1, 1, 1, 1⟩ ⟨some 3, some 5, some 7, some 2⟩).request_memory) ∧
    kube_pod_resources ⟨1, 1, 1, 1⟩ ⟨some (1/2), some 512, none, some 256⟩ =
      ⟨1/2, 512, 1, 1024⟩ :=
  ⟨(c2_limits_defaulting ⟨1, 1, 1, 1⟩ ⟨some 3, some 5, some 7, some 2⟩).1.2.1 7 rfl,
   (c2_limits_defaulting ⟨1, 1, 1, 1⟩ ⟨some 3, some 5, some 7, some 2⟩).1.2.2.2 2 rfl,
   (c2_limits_defaulting ⟨1, 1, 1, 1⟩ ⟨some 3, some 5, some 7, some 2⟩).2⟩

/-- C3 counterexample: the invariant limit >= request cannot hold for every
job, whatever the schema defaults are: with the limit unset the built limit
is the schema default, and a job requesting more than that default violates
it (shown at defaults 1 and request_cpu 2). -/
theorem c3_counterexample :
    ¬ ∀ (dft : JobDefaults) (job : JobHints),
        (kube_pod_resources dft job).request_cpu ≤ (kube_pod_resources dft job).limit_cpu ∧
        (kube_pod_resources dft job).request_memory ≤ (kube_pod_resources dft job).limit_memory := by
  intro hall
  have h := (hall ⟨1, 1, 1, 1⟩ ⟨some 2, none, none, none⟩).1
  norm_num [kube_pod_resources] at h

/-- C3 amended: when the derived requests are nonnegative and, for each unset
limit, the schema default limit is at least the derived request, the built
spec satisfies limit_cpu >= request_cpu and limit_memory >= request_memory;
in particular whenever the supplied hints have request >= limit the
substituted 2 x request preserves the invariant. -/
theorem c3_limit_ge_request (dft : JobDefaults) (job : JobHints)
    (hc0 : 0 ≤ (kube_pod_resources dft job).request_cpu)
    (hm0 : 0 ≤ (kube_pod_resources dft job).request_memory)
    (hcd : job.limit_cpu = none →
      (kube_pod_resources dft job).request_cpu ≤ dft.limit_cpu)
    (hmd : job.limit_memory = none →
      (kube_pod_resources dft job).request_memory ≤ dft.limit_memory) :
    (kube_pod_resources dft job).request_cpu ≤ (kube_pod_resources dft job).limit_cpu ∧
    (kube_pod_resources dft job).request_memory ≤ (kube_pod_resources dft job).limit_memory := by
  obtain ⟨rc, rm, lc, lm⟩ := job
  constructor
  · cases lc with
    | none => exact hcd rfl
    | some l =>
        simp only [kube_pod_resources] at hc0 ⊢
        cases rc <;> cases rm <;> cases lm <;>
          · simp only at hc0 ⊢
            split <;> linarith
  · cases lm with
    | none => exact hmd rfl
    | some l =>
        simp only [kube_pod_resources] at hm0 ⊢
        cases rc <;> cases rm <;> cases lc <;>
          · simp only at hm0 ⊢
            split <;> linarith

/-- Witness for C3: defaults all 4, job with request_cpu 3, request_memory 3,
limit_cpu 2 (violating hint, padded to 6) and limit_memory unset
(default 4 >= 3). -/
theorem c3_witness :
    (kube_pod_resources ⟨4, 4, 4, 4⟩ ⟨some 3, some 3, some 2, none⟩).request_cpu ≤
      (kube_pod_resources ⟨4, 4, 4, 4⟩ ⟨some 3, some 3, some 2, none⟩).limit_cpu ∧
    (kube_pod_resources ⟨4, 4, 4, 4⟩ ⟨some 3, some 3, some 2, none⟩).request_memory ≤
      (kube_pod_resources ⟨4, 4, 4, 4⟩ ⟨some 3, some 3, some 2, none⟩).limit_memory :=
  c3_limit_ge_request ⟨4, 4, 4, 4⟩ ⟨some 3, some 3, some 2, none⟩
    (by norm_num [kube_pod_resources]) (by norm_num [kube_pod_resources])
    (by intro h; exact absurd h (by simp))
    (by intro _; norm_num [kube_pod_resources])

/-- C5: evaluation of the two parsers. The suffixed forms behave as the claim
states (milli-cores divided by 1000; Ki/Mi/Gi as binary multipliers), but a
memory string with no suffix loses its last two digits because the source
slices `memory[:-2]` unconditionally: "1024" parses to 10, not to the raw
byte count 1024. -/
theorem c5_parsing_eval :
    cpu2float "1500m" = some (1500 / 1000) ∧
    cpu2float "2" = some 2 ∧
    memory2int "3Ki" = some (3 * 1024) ∧
    memory2int "5Mi" = some (5 * 1024 ^ 2) ∧
    memory2int "2Gi" = some (2 * 1024 ^ 3) ∧
    memory2int "1024" = some 10 ∧
    (10 : ℤ) ≠ 1024 := by
  refine ⟨?_, ?_, ?_, ?_, ?_, ?_, by norm_num⟩ <;>
    simp +decide [cpu2float, memory2int, decimalToRat?, digitsToNat?, charDigit?,
      strEndsWith, strDropRight, List.splitOn, List.splitOnP, List.splitOnP.go]

/-- C6: every job emitted by the vulnerability-exploit creator carries
limit_cpu = 1, limit_memory = 10 and a priority from the table
{100, 80, 75, 50, 25, 10, 5}; filtered kinds yield nothing (shown at a
concrete binary whose null_dereference and unknown crashes are dropped).
But the fixed memory hint 10 is in the job schema's MiB unit - the pod
template renders it as "10Mi" = 10 x 1024^2 bytes - and not the 10 GiB the
claim states. -/
theorem c6_rex_eval :
    (∀ (cbns : List ChallengeBinaryNode), ∀ j ∈ rex_jobs cbns,
        j.limit_cpu = 1 ∧ j.limit_memory = 10 ∧
        j.priority ∈ ([100, 80, 75, 50, 25, 10, 5] : List ℤ)) ∧
    rex_jobs [⟨7, [⟨3, "ip_overwrite"⟩, ⟨4, "null_dereference"⟩, ⟨5, "unknown"⟩]⟩]
      = [⟨7, 3, 1, 10, 100⟩] ∧
    memory2int "10Mi" = some (10 * 1024 ^ 2) ∧
    (10 * 1024 ^ 2 : ℤ) ≠ 10 * 1024 ^ 3 := by
  refine ⟨?_, by decide, ?_, by norm_num⟩
  · intro cbns j hj
    simp only [rex_jobs, List.mem_flatMap, List.mem_filterMap] at hj
    obtain ⟨cbn, _, crash, _, hcr⟩ := hj
    by_cases hf : crash.kind ∈ rex_filtered_kinds
    · simp [hf] at hcr
    · rw [if_neg hf] at hcr
      cases hl : PRIORITY_MAP.lookup crash.kind with
      | none => rw [hl] at hcr; exact absurd hcr (by simp)
      | some p =>
          rw [hl] at hcr
          obtain rfl : RexJob.mk cbn.id crash.id 1 10 p = j := by
            simpa using hcr
          refine ⟨rfl, rfl, ?_⟩
          have hmem : (crash.kind, p) ∈ PRIORITY_MAP := by
            obtain ⟨l₁, l₂, hEq, -⟩ := List.lookup_eq_some_iff.mp hl
            rw [hEq]; simp
          simp only [PRIORITY_MAP, List.mem_cons, List.not_mem_nil, or_false,
            Prod.mk.injEq] at hmem
          rcases hmem with ⟨h1, rfl⟩ | ⟨h1, rfl⟩ | ⟨h1, rfl⟩ | ⟨h1, rfl⟩ | ⟨h1, rfl⟩ |
            ⟨h1, rfl⟩ | ⟨h1, rfl⟩ | ⟨h1, rfl⟩ | ⟨h1, rfl⟩ | ⟨h1, rfl⟩ <;>
            first
              | (rw [h1] at hf; exact absurd (by decide) hf)
              | simp
  · simp +decide [memory2int, digitsToNat?, charDigit?, strEndsWith, strDropRight]

/-- Witness for C6: the one job emitted for an ip_overwrite crash. -/
theorem c6_witness :
    (RexJob.mk 7 3 1 10 100).limit_cpu = 1 ∧
    (RexJob.mk 7 3 1 10 100).limit_memory = 10 ∧
    (RexJob.mk 7 3 1 10 100).priority ∈ ([100, 80, 75, 50, 25, 10, 5] : List ℤ) :=
  c6_rex_eval.1 [⟨7, [⟨3, "ip_overwrite"⟩]⟩] ⟨7, 3, 1, 10, 100⟩ (by decide)

/-! ### Helper lemma for the delete-then-create discipline -/

/-- On an error-free cluster one `schedule` call replaces any pod of the
job's worker name: the post-state is `insert name (erase name s)`. -/
theorem scheduleRun_eq (jid : ℕ) (s : Finset String) :
    scheduleRun jid s
      = insert (worker_name jid) (s.erase (worker_name jid)) := by
  by_cases h : worker_name jid ∈ s
  · simp [scheduleRun, schedule, terminate, schedule_kube_pod, create_pod, h,
      Bind.bind, Except.bind, Finset.not_mem_erase]
  · simp [scheduleRun, schedule, terminate, schedule_kube_pod, create_pod, h,
      Bind.bind, Except.bind, Finset.erase_eq_of_not_mem h]

/-- C7: `schedule(job)` is idempotent at the cluster: for every starting
cluster state and every positive number of consecutive error-free
`schedule` calls for the same job id, the post-state contains exactly one
pod named `worker-<id>`. -/
theorem c7_schedule_idempotent (s : Finset String) (jid k : ℕ) (hk : 1 ≤ k) :
    (((scheduleRun jid)^[k] s).filter (· = worker_name jid)).card = 1 := by
  obtain ⟨n, rfl⟩ : ∃ n, k = n + 1 := ⟨k - 1, by omega⟩
  rw [Function.iterate_succ_apply', scheduleRun_eq]
  rw [Finset.filter_eq' _ (worker_name jid)]
  simp

/-- Witness for C7: two consecutive schedule calls for job 1 starting from an
empty cluster leave exactly one `worker-1` pod. -/
theorem c7_witness :
    (((scheduleRun 1)^[2] ∅).filter (· = worker_name 1)).card = 1 :=
  c7_schedule_idempotent ∅ 1 2 (by norm_num)

/-- C8 counterexample: with the pod present and the delete call raising a
transport error (HTTP 500), `schedule` propagates the error out instead of
absorbing it: `terminate` wraps no handler around `exists()`/`delete()`. -/
theorem c8_counterexample :
    schedule .ok (.httpError 500) .ok {worker_name 1} 1
      = .error (.httpError 500) := by
  simp [schedule, terminate, Bind.bind, Except.bind, Finset.mem_singleton]

/-- C8 amended: every error raised by the create step is absorbed inside
`_schedule_kube_pod` - in particular an HTTP 409 conflict is treated as
success and leaves the cluster unchanged - but an error raised by the delete
step inside `terminate` propagates out of `schedule`. -/
theorem c8_error_absorption :
    (∀ (t : ApiOutcome) (s : Finset String) (jid : ℕ),
        ∃ s2, schedule_kube_pod t s jid = .ok s2) ∧
    (∀ (s : Finset String) (jid : ℕ), worker_name jid ∈ s →
        schedule_kube_pod .ok s jid = .ok s) ∧
    (∀ (s : Finset String) (jid : ℕ) (e c : ApiOutcome), e ≠ .ok →
        worker_name jid ∈ s →
        schedule .ok e c s jid = .error e) := by
  refine ⟨?_, ?_, ?_⟩
  · intro t s jid
    cases t with
    | ok =>
        by_cases h : worker_name jid ∈ s
        · exact ⟨s, by simp [schedule_kube_pod, create_pod, h]⟩
        · exact ⟨insert (worker_name jid) s, by simp [schedule_kube_pod, create_pod, h]⟩
    | httpError code => exact ⟨s, by simp [schedule_kube_pod, create_pod]⟩
    | pykubeError => exact ⟨s, by simp [schedule_kube_pod, create_pod]⟩
  · intro s jid h
    simp [schedule_kube_pod, create_pod, h]
  · intro s jid e c he hmem
    cases e with
    | ok => exact absurd rfl he
    | httpError code => simp [schedule, terminate, hmem, Bind.bind, Except.bind]
    | pykubeError => simp [schedule, terminate, hmem, Bind.bind, Except.bind]

/-- Witness for C8: a 409 conflict on create is success with the cluster
unchanged, and a pykube error on delete propagates out of schedule. -/
theorem c8_witness :
    schedule_kube_pod .ok {worker_name 3} 3 = .ok {worker_name 3} ∧
    schedule .ok .pykubeError .ok {worker_name 2} 2 = .error .pykubeError :=
  ⟨c8_error_absorption.2.1 {worker_name 3} 3 (Finset.mem_singleton_self _),
   c8_error_absorption.2.2 {worker_name 2} 2 .pykubeError .ok (by decide)
     (Finset.mem_singleton_self _)⟩

/-! ### Helper lemmas for the cluster-absent run -/

/-- Persisting a priority makes later lookups of that job id return it. -/
theorem persistPriority_lookup_self (db : List (ℕ × ℚ)) (jid : ℕ) (p : ℚ) :
    (persistPriority db jid p).lookup jid = some p := by
  induction db with
  | nil => simp [persistPriority]
  | cons row rest ih =>
      obtain ⟨k, v⟩ := row
      by_cases h : k = jid
      · subst h; simp [persistPriority]
      · have hne : (jid == k) = false := beq_eq_false_iff_ne.mpr (Ne.symm h)
        simp [persistPriority, h, List.lookup_cons, hne, ih]

/-- Persisting a priority leaves every other job id's row unchanged. -/
theorem persistPriority_lookup_other (db : List (ℕ × ℚ)) {i jid : ℕ} (p : ℚ)
    (hne : i ≠ jid) :
    (persistPriority db jid p).lookup i = db.lookup i := by
  induction db with
  | nil => simp [persistPriority, List.lookup_cons, beq_eq_false_iff_ne.mpr hne]
  | cons row rest ih =>
      obtain ⟨k, v⟩ := row
      by_cases h : k = jid
      · subst h
        simp [persistPriority, List.lookup_cons, beq_eq_false_iff_ne.mpr hne]
      · simp only [persistPriority, h, if_false, ite_false]
        simp [List.lookup_cons, ih]

/-- Job ids not produced by the brain keep their database row untouched. -/
theorem run_foldl_lookup_not_mem (sorted : List (ℕ × ℚ)) :
    ∀ (db : List (ℕ × ℚ)) (jid : ℕ), jid ∉ sorted.map Prod.fst →
    (sorted.foldl (fun d jp => persistPriority d jp.1 jp.2) db).lookup jid
      = db.lookup jid := by
  induction sorted with
  | nil => intro db jid _; rfl
  | cons hd rest ih =>
      intro db jid h
      simp only [List.map_cons, List.mem_cons] at h
      push_neg at h
      rw [List.foldl_cons, ih _ _ h.2, persistPriority_lookup_other _ _ h.1]

/-- With distinct job ids, every pair the brain emitted is persisted. -/
theorem run_foldl_lookup_mem (sorted : List (ℕ × ℚ)) :
    ∀ db : List (ℕ × ℚ), (sorted.map Prod.fst).Nodup →
    ∀ jp ∈ sorted,
      (sorted.foldl (fun d j => persistPriority d j.1 j.2) db).lookup jp.1
        = some jp.2 := by
  induction sorted with
  | nil => intro db _ jp h; cases h
  | cons hd rest ih =>
      intro db hnd jp hjp
      simp only [List.map_cons, List.nodup_cons] at hnd
      rw [List.foldl_cons]
      rcases List.mem_cons.mp hjp with rfl | hjp
      · rw [run_foldl_lookup_not_mem rest _ _ hnd.1, persistPriority_lookup_self]
      · exact ih _ hnd.2 jp hjp

/-- C9: with the cluster host unset or empty, `run()` takes the
cluster-absent branch: it makes zero cluster API calls, persists the priority
of every pair the brain emitted (for distinct job ids), and leaves every
other job row unchanged. -/
theorem c9_cluster_absent_run (host : Option String) (sorted db : List (ℕ × ℚ))
    (hhost : host = none ∨ host = some "")
    (hnd : (sorted.map Prod.fst).Nodup) :
    scheduler_run host sorted db
      = some ⟨sorted.foldl (fun d jp => persistPriority d jp.1 jp.2) db, 0⟩ ∧
    (∀ jp ∈ sorted,
        (sorted.foldl (fun d jp => persistPriority d jp.1 jp.2) db).lookup jp.1
          = some jp.2) ∧
    (∀ jid : ℕ, jid ∉ sorted.map Prod.fst →
        (sorted.foldl (fun d jp => persistPriority d jp.1 jp.2) db).lookup jid
          = db.lookup jid) := by
  have hunavail : is_kubernetes_unavailable host = true := by
    rcases hhost with rfl | rfl <;> rfl
  refine ⟨by simp [scheduler_run, hunavail], ?_, ?_⟩
  · exact run_foldl_lookup_mem sorted db hnd
  · intro jid h
    exact run_foldl_lookup_not_mem sorted db jid h

/-- Witness for C9: host unset, brain output [(1, 5), (2, 7)], database
[(1, 0), (3, 9)]: zero cluster calls, job 1's priority becomes 5 and job 3 is
untouched. -/
theorem c9_witness :
    scheduler_run none [(1, 5), (2, 7)] [(1, 0), (3, 9)]
      = some ⟨[((1 : ℕ), (5 : ℚ)), (2, 7)].foldl
          (fun d jp => persistPriority d jp.1 jp.2) [(1, 0), (3, 9)], 0⟩ ∧
    ([((1 : ℕ), (5 : ℚ)), (2, 7)].foldl
        (fun d jp => persistPriority d jp.1 jp.2) [(1, 0), (3, 9)]).lookup 1
      = some 5 ∧
    ([((1 : ℕ), (5 : ℚ)), (2, 7)].foldl
        (fun d jp => persistPriority d jp.1 jp.2) [(1, 0), (3, 9)]).lookup 3
      = ([((1 : ℕ), (0 : ℚ)), (3, 9)]).lookup 3 := by
  have h := c9_cluster_absent_run none [(1, 5), (2, 7)] [(1, 0), (3, 9)]
    (Or.inl rfl) (by decide)
  exact ⟨h.1, h.2.1 (1, 5) (List.mem_cons_self _ _), h.2.2 3 (by decide)⟩

/-! ### Helper lemmas for the poll-sanitizer store -/

/-- A get-or-create keeps every existing key. -/
theorem gocp_mem (store : List ℕ) (x y : ℕ) (h : x ∈ store) :
    x ∈ get_or_create_psjob store y := by
  unfold get_or_create_psjob
  split
  · exact h
  · simp [h]

/-- After a get-or-create the requested key is present. -/
theorem gocp_self (store : List ℕ) (y : ℕ) : y ∈ get_or_create_psjob store y := by
  unfold get_or_create_psjob
  split
  · assumption
  · simp

/-- A get-or-create adds nothing but the requested key. -/
theorem gocp_subset (store : List ℕ) (x y : ℕ)
    (h : x ∈ get_or_create_psjob store y) : x ∈ store ∨ x = y := by
  unfold get_or_create_psjob at h
  split at h
  · exact Or.inl h
  · simpa using h

/-- A get-or-create never duplicates keys. -/
theorem gocp_nodup (store : List ℕ) (y : ℕ) (h : store.Nodup) :
    (get_or_create_psjob store y).Nodup := by
  unfold get_or_create_psjob
  split
  · exact h
  · next hy => simp [List.nodup_append, h, hy]

/-- A get-or-create of a present key is the identity. -/
theorem gocp_fixed (store : List ℕ) (y : ℕ) (h : y ∈ store) :
    get_or_create_psjob store y = store := if_pos h

/-- Folded get-or-creates keep every existing key. -/
theorem gocp_fold_mem (ids : List ℕ) :
    ∀ (store : List ℕ) (x : ℕ), x ∈ store →
      x ∈ ids.foldl get_or_create_psjob store := by
  induction ids with
  | nil => intro store x h; exact h
  | cons i rest ih =>
      intro store x h
      exact ih _ x (gocp_mem store x i h)

/-- Folded get-or-creates insert every processed key. -/
theorem gocp_fold_complete (ids : List ℕ) :
    ∀ (store : List ℕ) (x : ℕ), x ∈ ids →
      x ∈ ids.foldl get_or_create_psjob store := by
  induction ids with
  | nil => intro store x h; cases h
  | cons i rest ih =>
      intro store x h
      rcases List.mem_cons.mp h with rfl | h
      · exact gocp_fold_mem rest _ x (gocp_self store x)
      · exact ih _ x h

/-- Folded get-or-creates insert nothing but the processed keys. -/
theorem gocp_fold_subset (ids : List ℕ) :
    ∀ (store : List ℕ) (x : ℕ), x ∈ ids.foldl get_or_create_psjob store →
      x ∈ store ∨ x ∈ ids := by
  induction ids with
  | nil => intro store x h; exact Or.inl h
  | cons i rest ih =>
      intro store x h
      rcases ih _ x h with h2 | h2
      · rcases gocp_subset store x i h2 with h3 | rfl
        · exact Or.inl h3
        · exact Or.inr (List.mem_cons_self _ _)
      · exact Or.inr (List.mem_cons_of_mem _ h2)

/-- Folded get-or-creates preserve key distinctness. -/
theorem gocp_fold_nodup (ids : List ℕ) :
    ∀ store : List ℕ, store.Nodup →
      (ids.foldl get_or_create_psjob store).Nodup := by
  induction ids with
  | nil => intro store h; exact h
  | cons i rest ih =>
      intro store h
      exact ih _ (gocp_nodup store i h)

/-- Folded get-or-creates of already-present keys change nothing. -/
theorem gocp_fold_fixed (ids : List ℕ) :
    ∀ store : List ℕ, (∀ x ∈ ids, x ∈ store) →
      ids.foldl get_or_create_psjob store = store := by
  induction ids with
  | nil => intro store _; rfl
  | cons i rest ih =>
      intro store h
      rw [List.foldl_cons, gocp_fixed store i (h i (List.mem_cons_self _ _))]
      exact ih _ (fun x hx => h x (List.mem_cons_of_mem _ hx))

/-- C10: the poll-sanitizer creator inserts (get-or-create, keyed by the
poll's id) one sanitizer job for each unsanitized raw round-poll, inserts
nothing else, never duplicates a key, yields the empty stream, and a second
call changes nothing. -/
theorem c10_poll_sanitizer (polls : List RawRoundPoll) (store : List ℕ)
    (hnd : store.Nodup) :
    (nps_jobs polls store).2 = [] ∧
    (∀ p ∈ polls, p.sanitized = false → p.id ∈ (nps_jobs polls store).1) ∧
    (∀ x ∈ (nps_jobs polls store).1,
        x ∈ store ∨ ∃ p ∈ polls, p.sanitized = false ∧ p.id = x) ∧
    (nps_jobs polls store).1.Nodup ∧
    nps_jobs polls (nps_jobs polls store).1 = ((nps_jobs polls store).1, []) := by
  have hfold : ∀ st : List ℕ, (nps_jobs polls st).1
      = ((polls.filter (fun p => p.sanitized = false)).map RawRoundPoll.id).foldl
          get_or_create_psjob st := by
    intro st
    simp [nps_jobs, List.foldl_map]
  refine ⟨rfl, ?_, ?_, ?_, ?_⟩
  · intro p hp hs
    rw [hfold]
    apply gocp_fold_complete
    exact List.mem_map_of_mem _ (List.mem_filter.mpr ⟨hp, by simp [hs]⟩)
  · intro x hx
    rw [hfold] at hx
    rcases gocp_fold_subset _ _ _ hx with h | h
    · exact Or.inl h
    · obtain ⟨p, hp, rfl⟩ := List.mem_map.mp h
      obtain ⟨hp1, hp2⟩ := List.mem_filter.mp hp
      exact Or.inr ⟨p, hp1, by simpa using hp2, rfl⟩
  · rw [hfold]
    exact gocp_fold_nodup _ store hnd
  · have h2 : (nps_jobs polls (nps_jobs polls store).1).1 = (nps_jobs polls store).1 := by
      rw [hfold, hfold]
      apply gocp_fold_fixed
      intro x hx
      exact gocp_fold_complete _ store x hx
    exact Prod.ext h2 rfl

/-- Witness for C10: polls {1 unsanitized, 2 sanitized, 3 unsanitized} on a
store already holding key 3: the creator emits nothing and a second call is a
no-op. -/
theorem c10_witness :
    (nps_jobs [⟨1, false⟩, ⟨2, true⟩, ⟨3, false⟩] [3]).2 = [] ∧
    nps_jobs [⟨1, false⟩, ⟨2, true⟩, ⟨3, false⟩]
        (nps_jobs [⟨1, false⟩, ⟨2, true⟩, ⟨3, false⟩] [3]).1
      = ((nps_jobs [⟨1, false⟩, ⟨2, true⟩, ⟨3, false⟩] [3]).1, []) := by
  have h := c10_poll_sanitizer [⟨1, false⟩, ⟨2, true⟩, ⟨3, false⟩] [3] (by decide)
  exact ⟨h.1, h.2.2.2.2⟩

end Meister
